import Mathlib

/-!
Verification of the DrumKitz peak-detection core (`src/utils/audioProcessing.ts`).

The JavaScript code is shallowly embedded: sample values and thresholds are
modelled as exact rationals (`ℚ`), sample indices as `ℤ`/`ℕ`.  A JavaScript
number produced by `Math.sqrt` is modelled by the type `RVal`: `RVal.sqrtVal q`
stands for `√q` (the radicand is kept, so every comparison against a rational
threshold is exact and decidable), and `RVal.nan` stands for `NaN` (which
arises in the source from the `0/0` division when the RMS window is empty).
All JavaScript comparisons involving `NaN` are false, which the `RVal`
comparison functions reproduce.
-/

set_option allowUnsafeReducibility true in
attribute [semireducible] Rat.add Rat.mul Rat.sub Rat.inv Rat.div Rat.ofScientific

/-- Result of `Math.sqrt` on a rational radicand, or `NaN`.
`sqrtVal q` represents the real number `√q` (with `q ≥ 0` at every use site). -/
inductive RVal where
  | nan : RVal
  | sqrtVal : ℚ → RVal
deriving DecidableEq

/-- JavaScript `x > t` where `x` is `√q` or `NaN` and `t` is rational:
`√q > t ↔ t < 0 ∨ t·t < q` (for `q ≥ 0`); `NaN > t` is false. -/
def RVal.gtQ : RVal → ℚ → Bool
  | .nan, _ => false
  | .sqrtVal q, t => decide (t < 0) || decide (t * t < q)

/-- JavaScript `x <= t`: `√q ≤ t ↔ 0 ≤ t ∧ q ≤ t·t` (for `q ≥ 0`); `NaN <= t` is false. -/
def RVal.leQ : RVal → ℚ → Bool
  | .nan, _ => false
  | .sqrtVal q, t => decide (0 ≤ t) && decide (q ≤ t * t)

/-- JavaScript `Math.max` on `RVal`s: propagates `NaN`; on values,
`max (√a) (√b) = √(max a b)` since the square root is monotone. -/
def RVal.max : RVal → RVal → RVal
  | .nan, _ => .nan
  | .sqrtVal _, .nan => .nan
  | .sqrtVal a, .sqrtVal b => .sqrtVal (Max.max a b)

/-- `const MIN_PEAK_DISTANCE = 0.05` -/
def MIN_PEAK_DISTANCE : ℚ := 0.05

/-- `const PRE_PEAK_BUFFER = 0.025` -/
def PRE_PEAK_BUFFER : ℚ := 0.025

/-- `const POST_PEAK_BUFFER = 0.05` -/
def POST_PEAK_BUFFER : ℚ := 0.05

/-- `const MIN_SEGMENT_DURATION = 0.05` -/
def MIN_SEGMENT_DURATION : ℚ := 0.05

/-- `const MAX_SEGMENT_DURATION = 0.2` -/
def MAX_SEGMENT_DURATION : ℚ := 0.2

/-- `Math.floor(MIN_PEAK_DISTANCE * sampleRate)` -/
def minPeakDistanceSamples (sampleRate : ℕ) : ℤ := ⌊MIN_PEAK_DISTANCE * (sampleRate : ℚ)⌋

/-- `Math.floor(PRE_PEAK_BUFFER * sampleRate)` -/
def prePeakBufferSamples (sampleRate : ℕ) : ℤ := ⌊PRE_PEAK_BUFFER * (sampleRate : ℚ)⌋

/-- `Math.floor(POST_PEAK_BUFFER * sampleRate)` -/
def postPeakBufferSamples (sampleRate : ℕ) : ℤ := ⌊POST_PEAK_BUFFER * (sampleRate : ℚ)⌋

/-- `Math.floor(MIN_SEGMENT_DURATION * sampleRate)` -/
def minSegmentSamples (sampleRate : ℕ) : ℤ := ⌊MIN_SEGMENT_DURATION * (sampleRate : ℚ)⌋

/-- `Math.floor(MAX_SEGMENT_DURATION * sampleRate)` -/
def maxSegmentSamples (sampleRate : ℕ) : ℤ := ⌊MAX_SEGMENT_DURATION * (sampleRate : ℚ)⌋

/-- `Math.floor(0.005 * sampleRate)` (window size is used as a count, so `ℕ`). -/
def rmsWindowSize (sampleRate : ℕ) : ℕ := (⌊(0.005 : ℚ) * (sampleRate : ℚ)⌋).toNat

/-- The accumulation loop of `calculateRMS`:
`for (i = start; i < start + count; i++) sum += data[i] * data[i]`.
Out-of-range reads default to `0` (they never occur at the call sites that
matter, because the end index is clamped to the buffer length). -/
def sumSquaresFrom (data : List ℚ) : ℕ → ℕ → ℚ
  | _, 0 => 0
  | start, count + 1 =>
      data.getD start 0 * data.getD start 0 + sumSquaresFrom data (start + 1) count

/-- `calculateRMS(data, start, length)` from the source:
`end = Math.min(start + length, data.length)`; sum of squares over
`[start, end)`; result `sqrt(sum / (end - start))`.  When `end = start` the
source divides `0/0`, producing `NaN`. -/
def calculateRMS (data : List ℚ) (start winLen : ℕ) : RVal :=
  let e := min (start + winLen) data.length
  if e = start then RVal.nan
  else RVal.sqrtVal (sumSquaresFrom data start (e - start) / ((e : ℚ) - (start : ℚ)))

/-- The `Peak` interface: `start`/`end` in seconds, plus the peak RMS amplitude.
(`end` is a Lean keyword, hence `endTime`.) -/
structure Peak where
  start : ℚ
  endTime : ℚ
  amplitude : RVal
deriving DecidableEq

/-- The mutable locals of `detectPeaks`'s scan loop. -/
structure DetectState where
  peaks : List Peak
  lastPeakIndex : ℤ
  isInPeak : Bool
  peakStartIndex : ℤ
  maxAmplitude : RVal

/-- Initial state of the scan:
`lastPeakIndex = -minPeakDistanceSamples`, `isInPeak = false`,
`peakStartIndex = 0`, `maxAmplitude = 0` (and `0 = √0`). -/
def initState (sampleRate : ℕ) : DetectState :=
  ⟨[], -(minPeakDistanceSamples sampleRate), false, 0, RVal.sqrtVal 0⟩

/-- The end-of-peak index computation of the exit branch:
`peakEndIndex = Math.min(i + postPeakBufferSamples, data.length)`, then the
minimum-duration extension, then the maximum-duration clamp. -/
def exitPeakEnd (sampleRate : ℕ) (bufLen peakStart : ℤ) (i : ℕ) : ℤ :=
  let peakEnd0 : ℤ := min ((i : ℤ) + postPeakBufferSamples sampleRate) bufLen
  let peakEnd1 : ℤ :=
    if peakEnd0 - peakStart < minSegmentSamples sampleRate then
      peakStart + minSegmentSamples sampleRate
    else peakEnd0
  if maxSegmentSamples sampleRate < peakEnd1 - peakStart then
    peakStart + maxSegmentSamples sampleRate
  else peakEnd1

/-- One iteration of the `for (let i = 0; i < data.length; i++)` loop of
`detectPeaks`, translated branch for branch. -/
def detectStep (data : List ℚ) (sampleRate : ℕ) (threshold : ℚ)
    (s : DetectState) (i : ℕ) : DetectState :=
  let rms := calculateRMS data i (rmsWindowSize sampleRate)
  if rms.gtQ threshold = true ∧ s.isInPeak = false ∧
      minPeakDistanceSamples sampleRate ≤ (i : ℤ) - s.lastPeakIndex then
    { s with isInPeak := true,
             peakStartIndex := max ((i : ℤ) - prePeakBufferSamples sampleRate)
               (s.lastPeakIndex + minPeakDistanceSamples sampleRate),
             maxAmplitude := rms }
  else if rms.gtQ threshold = true ∧ s.isInPeak = true then
    { s with maxAmplitude := s.maxAmplitude.max rms }
  else if rms.leQ threshold = true ∧ s.isInPeak = true then
    let peakEnd2 : ℤ := exitPeakEnd sampleRate (data.length : ℤ) s.peakStartIndex i
    if minSegmentSamples sampleRate ≤ peakEnd2 - s.peakStartIndex then
      { s with isInPeak := false,
               peaks := s.peaks ++
                 [⟨(s.peakStartIndex : ℚ) / (sampleRate : ℚ),
                   (peakEnd2 : ℚ) / (sampleRate : ℚ), s.maxAmplitude⟩],
               lastPeakIndex := peakEnd2 }
    else { s with isInPeak := false }
  else s

/-- Runs the scan loop over indices `i, i+1, …, i+rem-1`. -/
def detectFrom (data : List ℚ) (sampleRate : ℕ) (threshold : ℚ) :
    DetectState → ℕ → ℕ → DetectState
  | s, _, 0 => s
  | s, i, rem + 1 => detectFrom data sampleRate threshold
      (detectStep data sampleRate threshold s i) (i + 1) rem

/-- `detectPeaks(audioBuffer, threshold)`: scan the whole buffer, then the
end-of-buffer flush (`if (isInPeak) { … }`). -/
def detectPeaks (data : List ℚ) (sampleRate : ℕ) (threshold : ℚ) : List Peak :=
  let s := detectFrom data sampleRate threshold (initState sampleRate) 0 data.length
  if s.isInPeak then
    let peakEnd : ℤ := min (data.length : ℤ) (s.peakStartIndex + maxSegmentSamples sampleRate)
    if minSegmentSamples sampleRate ≤ peakEnd - s.peakStartIndex then
      s.peaks ++ [⟨(s.peakStartIndex : ℚ) / (sampleRate : ℚ),
                   (peakEnd : ℚ) / (sampleRate : ℚ), s.maxAmplitude⟩]
    else s.peaks
  else s.peaks

/-- A concrete sample buffer of `n` samples given by a sample function. -/
def mkBuffer (n : ℕ) (f : ℕ → ℚ) : List ℚ := (List.range n).map f

/-- Scenario A's sample function: `0.5` on indices `[4800, 4900)`, `0` elsewhere. -/
def burstSig (j : ℕ) : ℚ := if 4800 ≤ j ∧ j < 4900 then 1/2 else 0

/-- Scenario A's buffer: 48000 samples at 48000 Hz, all zeros except
samples `[4800:4900]` set to `0.5`. -/
def scenarioA : List ℚ := mkBuffer 48000 burstSig

/-- Error raised by `AudioContext.createBuffer` when asked for a buffer of
nonpositive length (or zero channels): the only way `sliceAudio` can fail. -/
inductive SliceError where
  | notSupported : SliceError
deriving DecidableEq

/-- A JavaScript `Float32Array` read `channelData[idx]`: out-of-range or
negative indices yield `undefined`, which is stored back as `NaN`; `none`
models that `NaN`. -/
def readSample (d : List ℚ) (i : ℤ) : Option ℚ :=
  if 0 ≤ i then d[i.toNat]? else none

/-- `sliceAudio(audioBuffer, start, end)` from the source:
`sampleStart = Math.floor(start * sampleRate)`,
`sampleDuration = Math.floor((end - start) * sampleRate)`; `createBuffer`
throws when the requested length is nonpositive (or there are no channels);
otherwise each output channel is filled by `newChannelData[i] =
channelData[sampleStart + i]`, with no bounds check on the source read. -/
def sliceAudio (channels : List (List ℚ)) (sampleRate : ℕ) (startT endT : ℚ) :
    Except SliceError (List (List (Option ℚ))) :=
  let duration := endT - startT
  let sampleStart : ℤ := ⌊startT * (sampleRate : ℚ)⌋
  let sampleDuration : ℤ := ⌊duration * (sampleRate : ℚ)⌋
  if channels.length = 0 ∨ sampleDuration ≤ 0 then Except.error SliceError.notSupported
  else Except.ok (channels.map fun d =>
    (List.range sampleDuration.toNat).map fun i : ℕ => readSample d (sampleStart + (i : ℤ)))

/-- The invariant maintained by the scan loop of `detectPeaks`:
emitted segments are chained with at least a `MIN_PEAK_DISTANCE` gap, have
durations within the segment-duration bounds, have amplitudes above the
threshold, and all end no later than `lastPeakIndex`; while inside a peak,
the pending start index respects the exclusion zone after the previous peak
and the running amplitude is above the threshold. -/
structure ScanInv (sampleRate : ℕ) (threshold : ℚ) (s : DetectState) : Prop where
  chain : s.peaks.Chain' fun p q =>
    p.endTime + (minPeakDistanceSamples sampleRate : ℚ) / (sampleRate : ℚ) ≤ q.start
  bounds : ∀ p ∈ s.peaks,
    (minSegmentSamples sampleRate : ℚ) / (sampleRate : ℚ) ≤ p.endTime - p.start ∧
      p.endTime - p.start ≤ (maxSegmentSamples sampleRate : ℚ) / (sampleRate : ℚ)
  ampPos : ∀ p ∈ s.peaks, p.amplitude.gtQ threshold = true
  lastBound : ∀ p ∈ s.peaks, p.endTime ≤ (s.lastPeakIndex : ℚ) / (sampleRate : ℚ)
  startGap : s.isInPeak = true →
    s.lastPeakIndex + minPeakDistanceSamples sampleRate ≤ s.peakStartIndex
  ampPeak : s.isInPeak = true → s.maxAmplitude.gtQ threshold = true

theorem minPeakDistanceSamples_nonneg (r : ℕ) : 0 ≤ minPeakDistanceSamples r :=
  Int.floor_nonneg.mpr (by unfold MIN_PEAK_DISTANCE; positivity)

theorem prePeakBufferSamples_nonneg (r : ℕ) : 0 ≤ prePeakBufferSamples r :=
  Int.floor_nonneg.mpr (by unfold PRE_PEAK_BUFFER; positivity)

theorem postPeakBufferSamples_nonneg (r : ℕ) : 0 ≤ postPeakBufferSamples r :=
  Int.floor_nonneg.mpr (by unfold POST_PEAK_BUFFER; positivity)

theorem minSegmentSamples_nonneg (r : ℕ) : 0 ≤ minSegmentSamples r :=
  Int.floor_nonneg.mpr (by unfold MIN_SEGMENT_DURATION; positivity)

theorem maxSegmentSamples_nonneg (r : ℕ) : 0 ≤ maxSegmentSamples r :=
  Int.floor_nonneg.mpr (by unfold MAX_SEGMENT_DURATION; positivity)

theorem minSegmentSamples_le_maxSegmentSamples (r : ℕ) :
    minSegmentSamples r ≤ maxSegmentSamples r := by
  apply Int.floor_le_floor
  unfold MIN_SEGMENT_DURATION MAX_SEGMENT_DURATION
  apply mul_le_mul_of_nonneg_right (by norm_num) (by positivity)

/-- Dividing both sides of an integer inequality by a (possibly zero)
natural sample rate. -/
theorem intCast_div_le_div {a b : ℤ} (r : ℕ) (h : a ≤ b) :
    (a : ℚ) / (r : ℚ) ≤ (b : ℚ) / (r : ℚ) := by
  rcases Nat.eq_zero_or_pos r with h0 | hpos
  · subst h0; simp
  · exact (div_le_div_iff_of_pos_right (by exact_mod_cast hpos)).mpr (by exact_mod_cast h)

theorem gtQ_max {a b : RVal} {t : ℚ} (ha : a.gtQ t = true) (hb : b.gtQ t = true) :
    (a.max b).gtQ t = true := by
  cases a with
  | nan => simp [RVal.gtQ] at ha
  | sqrtVal qa =>
    cases b with
    | nan => simp [RVal.gtQ] at hb
    | sqrtVal qb =>
      simp only [RVal.gtQ, RVal.max, Bool.or_eq_true, decide_eq_true_eq] at *
      rcases ha with h | h
      · exact Or.inl h
      · exact Or.inr (lt_of_lt_of_le h (le_max_left _ _))

/-- The clamped exit index always yields a duration within
`[minSegmentSamples, maxSegmentSamples]`. -/
theorem exitPeakEnd_bounds (r : ℕ) (bufLen S : ℤ) (i : ℕ) :
    minSegmentSamples r ≤ exitPeakEnd r bufLen S i - S ∧
      exitPeakEnd r bufLen S i - S ≤ maxSegmentSamples r := by
  have hmm := minSegmentSamples_le_maxSegmentSamples r
  simp only [exitPeakEnd]
  split_ifs with h1 h2 h3 <;> constructor <;> omega

/-- The facts about the peak list after appending one emitted segment. -/
theorem inv_emit {r : ℕ} {t : ℚ} {peaks : List Peak} {lp S E : ℤ} {amp : RVal}
    (hchain : peaks.Chain' fun p q =>
      p.endTime + (minPeakDistanceSamples r : ℚ) / (r : ℚ) ≤ q.start)
    (hbounds : ∀ p ∈ peaks,
      (minSegmentSamples r : ℚ) / (r : ℚ) ≤ p.endTime - p.start ∧
        p.endTime - p.start ≤ (maxSegmentSamples r : ℚ) / (r : ℚ))
    (hamp : ∀ p ∈ peaks, p.amplitude.gtQ t = true)
    (hlast : ∀ p ∈ peaks, p.endTime ≤ (lp : ℚ) / (r : ℚ))
    (hgap : lp + minPeakDistanceSamples r ≤ S)
    (hE1 : minSegmentSamples r ≤ E - S)
    (hE2 : E - S ≤ maxSegmentSamples r)
    (hampE : amp.gtQ t = true) :
    (peaks ++ [Peak.mk ((S : ℚ) / (r : ℚ)) ((E : ℚ) / (r : ℚ)) amp]).Chain'
      (fun p q => p.endTime + (minPeakDistanceSamples r : ℚ) / (r : ℚ) ≤ q.start) ∧
    (∀ p ∈ peaks ++ [Peak.mk ((S : ℚ) / (r : ℚ)) ((E : ℚ) / (r : ℚ)) amp],
      (minSegmentSamples r : ℚ) / (r : ℚ) ≤ p.endTime - p.start ∧
        p.endTime - p.start ≤ (maxSegmentSamples r : ℚ) / (r : ℚ)) ∧
    (∀ p ∈ peaks ++ [Peak.mk ((S : ℚ) / (r : ℚ)) ((E : ℚ) / (r : ℚ)) amp],
      p.amplitude.gtQ t = true) ∧
    (∀ p ∈ peaks ++ [Peak.mk ((S : ℚ) / (r : ℚ)) ((E : ℚ) / (r : ℚ)) amp],
      p.endTime ≤ (E : ℚ) / (r : ℚ)) := by
  have hSE : S ≤ E := by have := minSegmentSamples_nonneg r; omega
  have hlpS : lp ≤ S := by have := minPeakDistanceSamples_nonneg r; omega
  have hnew1 : (minSegmentSamples r : ℚ) / (r : ℚ) ≤ (E : ℚ) / (r : ℚ) - (S : ℚ) / (r : ℚ) := by
    rw [div_sub_div_same]
    have := intCast_div_le_div r hE1
    push_cast at this ⊢
    convert this using 2
  have hnew2 : (E : ℚ) / (r : ℚ) - (S : ℚ) / (r : ℚ) ≤ (maxSegmentSamples r : ℚ) / (r : ℚ) := by
    rw [div_sub_div_same]
    have := intCast_div_le_div r hE2
    push_cast at this ⊢
    convert this using 2
  refine ⟨?_, ?_, ?_, ?_⟩
  · rw [List.chain'_append]
    refine ⟨hchain, by simp, ?_⟩
    intro x hx y hy
    simp only [List.head?_cons, Option.mem_def, Option.some.injEq] at hy
    subst hy
    have hxmem : x ∈ peaks := List.mem_of_mem_getLast? hx
    have h1 : x.endTime + (minPeakDistanceSamples r : ℚ) / (r : ℚ) ≤
        (lp : ℚ) / (r : ℚ) + (minPeakDistanceSamples r : ℚ) / (r : ℚ) := by
      have := hlast x hxmem; linarith
    have h2 : (lp : ℚ) / (r : ℚ) + (minPeakDistanceSamples r : ℚ) / (r : ℚ) ≤ (S : ℚ) / (r : ℚ) := by
      rw [div_add_div_same]
      have := intCast_div_le_div r hgap
      push_cast at this ⊢
      convert this using 2
    exact le_trans h1 h2
  · intro p hp
    rcases List.mem_append.mp hp with h | h
    · exact hbounds p h
    · simp only [List.mem_singleton] at h
      subst h
      exact ⟨hnew1, hnew2⟩
  · intro p hp
    rcases List.mem_append.mp hp with h | h
    · exact hamp p h
    · simp only [List.mem_singleton] at h
      subst h
      exact hampE
  · intro p hp
    rcases List.mem_append.mp hp with h | h
    · exact le_trans (hlast p h) (intCast_div_le_div r (le_trans hlpS hSE))
    · simp only [List.mem_singleton] at h
      subst h
      exact le_refl _

/-- Each loop iteration preserves the scan invariant. -/
theorem scanInv_step (data : List ℚ) (r : ℕ) (t : ℚ) (i : ℕ) {s : DetectState}
    (hs : ScanInv r t s) : ScanInv r t (detectStep data r t s i) := by
  simp only [detectStep]
  by_cases h1 : (calculateRMS data i (rmsWindowSize r)).gtQ t = true ∧ s.isInPeak = false ∧
      minPeakDistanceSamples r ≤ (i : ℤ) - s.lastPeakIndex
  · rw [if_pos h1]
    exact ⟨hs.chain, hs.bounds, hs.ampPos, hs.lastBound,
      fun _ => le_max_right _ _, fun _ => h1.1⟩
  · rw [if_neg h1]
    by_cases h2 : (calculateRMS data i (rmsWindowSize r)).gtQ t = true ∧ s.isInPeak = true
    · rw [if_pos h2]
      exact ⟨hs.chain, hs.bounds, hs.ampPos, hs.lastBound,
        fun h => hs.startGap h, fun _ => gtQ_max (hs.ampPeak h2.2) h2.1⟩
    · rw [if_neg h2]
      by_cases h3 : (calculateRMS data i (rmsWindowSize r)).leQ t = true ∧ s.isInPeak = true
      · rw [if_pos h3]
        by_cases h4 : minSegmentSamples r ≤
            exitPeakEnd r (data.length : ℤ) s.peakStartIndex i - s.peakStartIndex
        · rw [if_pos h4]
          obtain ⟨hc, hb, ha, hl⟩ := inv_emit hs.chain hs.bounds hs.ampPos hs.lastBound
            (hs.startGap h3.2) (exitPeakEnd_bounds r (data.length : ℤ) s.peakStartIndex i).1
            (exitPeakEnd_bounds r (data.length : ℤ) s.peakStartIndex i).2
            (hs.ampPeak h3.2)
          exact ⟨hc, hb, ha, hl, fun h => (nomatch h), fun h => (nomatch h)⟩
        · rw [if_neg h4]
          exact ⟨hs.chain, hs.bounds, hs.ampPos, hs.lastBound,
            fun h => (nomatch h), fun h => (nomatch h)⟩
      · rw [if_neg h3]
        exact hs

/-- Running any stretch of the loop preserves the scan invariant. -/
theorem scanInv_detectFrom (data : List ℚ) (r : ℕ) (t : ℚ) (i rem : ℕ) {s : DetectState}
    (hs : ScanInv r t s) : ScanInv r t (detectFrom data r t s i rem) := by
  induction rem generalizing s i with
  | zero => exact hs
  | succ n ih =>
    simp only [detectFrom]
    exact ih (i + 1) (scanInv_step data r t i hs)

/-- The initial state satisfies the scan invariant. -/
theorem scanInv_init (r : ℕ) (t : ℚ) : ScanInv r t (initState r) := by
  constructor <;> simp [initState]

/-- The output of `detectPeaks` satisfies the chained-gap, duration-bounds and
amplitude facts (flush segment included). -/
theorem detectPeaks_facts (data : List ℚ) (r : ℕ) (t : ℚ) :
    (detectPeaks data r t).Chain' (fun p q =>
      p.endTime + (minPeakDistanceSamples r : ℚ) / (r : ℚ) ≤ q.start) ∧
    (∀ p ∈ detectPeaks data r t,
      (minSegmentSamples r : ℚ) / (r : ℚ) ≤ p.endTime - p.start ∧
        p.endTime - p.start ≤ (maxSegmentSamples r : ℚ) / (r : ℚ)) ∧
    (∀ p ∈ detectPeaks data r t, p.amplitude.gtQ t = true) := by
  have hs : ScanInv r t (detectFrom data r t (initState r) 0 data.length) :=
    scanInv_detectFrom data r t 0 data.length (scanInv_init r t)
  simp only [detectPeaks]
  by_cases hin : (detectFrom data r t (initState r) 0 data.length).isInPeak = true
  · rw [if_pos hin]
    by_cases hflush : minSegmentSamples r ≤
        min ((data.length : ℤ))
          ((detectFrom data r t (initState r) 0 data.length).peakStartIndex +
            maxSegmentSamples r) -
          (detectFrom data r t (initState r) 0 data.length).peakStartIndex
    · rw [if_pos hflush]
      have hE2 : min ((data.length : ℤ))
          ((detectFrom data r t (initState r) 0 data.length).peakStartIndex +
            maxSegmentSamples r) -
          (detectFrom data r t (initState r) 0 data.length).peakStartIndex ≤
          maxSegmentSamples r := by
        have := min_le_right ((data.length : ℤ))
          ((detectFrom data r t (initState r) 0 data.length).peakStartIndex +
            maxSegmentSamples r)
        omega
      obtain ⟨hc, hb, ha, _⟩ := inv_emit hs.chain hs.bounds hs.ampPos hs.lastBound
        (hs.startGap hin) hflush hE2 (hs.ampPeak hin)
      exact ⟨hc, hb, ha⟩
    · rw [if_neg hflush]
      exact ⟨hs.chain, hs.bounds, hs.ampPos⟩
  · rw [if_neg hin]
    exact ⟨hs.chain, hs.bounds, hs.ampPos⟩

/-- Segments whose ends precede the next start, and whose starts precede their
own ends, have non-decreasing starts. -/
theorem chain_start_mono : ∀ l : List Peak,
    (l.Chain' fun p q => p.endTime ≤ q.start) →
    (∀ p ∈ l, p.start ≤ p.endTime) →
    l.Chain' fun p q => p.start ≤ q.start := by
  intro l
  induction l with
  | nil => intro _ _; simp
  | cons x xs ih =>
    intro hc hb
    cases xs with
    | nil => simp
    | cons y ys =>
      rw [List.chain'_cons] at hc ⊢
      refine ⟨le_trans (hb x (by simp)) hc.1, ih hc.2 ?_⟩
      intro p hp
      exact hb p (List.mem_cons_of_mem x hp)

/-- C2: for every input buffer, sample rate and threshold, the output of
`detectPeaks` is in non-decreasing start order and non-overlapping: for all
adjacent output segments, `segments[i].end ≤ segments[i+1].start`. -/
theorem detectPeaks_sorted_nonoverlapping (data : List ℚ) (r : ℕ) (t : ℚ) :
    ((detectPeaks data r t).Chain' fun p q => p.start ≤ q.start) ∧
    ((detectPeaks data r t).Chain' fun p q => p.endTime ≤ q.start) := by
  obtain ⟨hc, hb, -⟩ := detectPeaks_facts data r t
  have hgap0 : 0 ≤ (minPeakDistanceSamples r : ℚ) / (r : ℚ) :=
    div_nonneg (by exact_mod_cast minPeakDistanceSamples_nonneg r) (by positivity)
  have hmin0 : 0 ≤ (minSegmentSamples r : ℚ) / (r : ℚ) :=
    div_nonneg (by exact_mod_cast minSegmentSamples_nonneg r) (by positivity)
  have hchain : (detectPeaks data r t).Chain' fun p q => p.endTime ≤ q.start :=
    hc.imp fun a b hab => by linarith
  refine ⟨chain_start_mono _ hchain ?_, hchain⟩
  intro p hp
  have := (hb p hp).1
  linarith

/-- C9: adjacent output segments of `detectPeaks` are separated by the full
`MIN_PEAK_DISTANCE` exclusion gap:
`segments[i].end + minPeakDistanceSamples/sampleRate ≤ segments[i+1].start`. -/
theorem detectPeaks_min_peak_distance_gap (data : List ℚ) (r : ℕ) (t : ℚ) :
    (detectPeaks data r t).Chain' fun p q =>
      p.endTime + (minPeakDistanceSamples r : ℚ) / (r : ℚ) ≤ q.start :=
  (detectPeaks_facts data r t).1

/-- C3: every segment returned by `detectPeaks` — the final flushed one
included — has a duration between `minSegmentSamples/sampleRate` and
`maxSegmentSamples/sampleRate` (the seconds-valued constants converted to
sample counts by truncation, divided back by the sample rate). -/
theorem detectPeaks_duration_bounds (data : List ℚ) (r : ℕ) (t : ℚ) :
    ∀ p ∈ detectPeaks data r t,
      (minSegmentSamples r : ℚ) / (r : ℚ) ≤ p.endTime - p.start ∧
        p.endTime - p.start ≤ (maxSegmentSamples r : ℚ) / (r : ℚ) :=
  (detectPeaks_facts data r t).2.1

set_option maxRecDepth 40000 in
theorem detectPeaks_duration_bounds_witness :
    Peak.mk 0 (3/20) (RVal.sqrtVal 1) ∈ detectPeaks (List.replicate 30 1) 200 (1/10) ∧
    ((minSegmentSamples 200 : ℚ) / (200 : ℚ) ≤ (3/20 : ℚ) - 0 ∧
      (3/20 : ℚ) - 0 ≤ (maxSegmentSamples 200 : ℚ) / (200 : ℚ)) :=
  ⟨by decide, detectPeaks_duration_bounds (List.replicate 30 1) 200 (1/10)
    (Peak.mk 0 (3/20) (RVal.sqrtVal 1)) (by decide)⟩

/-- C10: every segment emitted by `detectPeaks` has amplitude strictly greater
than the threshold (in the model's exact ordering on RMS values). -/
theorem detectPeaks_amplitude_above_threshold (data : List ℚ) (r : ℕ) (t : ℚ) :
    ∀ p ∈ detectPeaks data r t, p.amplitude.gtQ t = true :=
  (detectPeaks_facts data r t).2.2

set_option maxRecDepth 40000 in
theorem detectPeaks_amplitude_above_threshold_witness :
    Peak.mk 0 (3/20) (RVal.sqrtVal 1) ∈ detectPeaks (List.replicate 30 1) 200 (1/10) ∧
    (RVal.sqrtVal 1).gtQ (1/10) = true :=
  ⟨by decide,
    detectPeaks_amplitude_above_threshold (List.replicate 30 1) 200 (1/10)
      (Peak.mk 0 (3/20) (RVal.sqrtVal 1)) (by decide)⟩

/-- C4: `detectPeaks` is a total computable function of its inputs (it is
defined by structural recursion, so it returns a segment list for every finite
buffer, every rational threshold and every sample rate); in particular a
zero-length sample buffer yields the empty sequence. -/
theorem detectPeaks_empty_input (r : ℕ) (t : ℚ) : detectPeaks [] r t = [] := rfl

/-- C5: `detectPeaks` is deterministic and a pure function of its inputs:
identical sample data, sample rate and threshold give identical output. -/
theorem detectPeaks_deterministic (d₁ d₂ : List ℚ) (r₁ r₂ : ℕ) (t₁ t₂ : ℚ)
    (hd : d₁ = d₂) (hr : r₁ = r₂) (ht : t₁ = t₂) :
    detectPeaks d₁ r₁ t₁ = detectPeaks d₂ r₂ t₂ := by
  subst hd; subst hr; subst ht; rfl

theorem detectPeaks_deterministic_witness :
    ([1] : List ℚ) = [1] ∧ (48000 : ℕ) = 48000 ∧ (1/10 : ℚ) = 1/10 ∧
    detectPeaks [1] 48000 (1/10) = detectPeaks [1] 48000 (1/10) :=
  ⟨rfl, rfl, rfl,
    detectPeaks_deterministic [1] [1] 48000 48000 (1/10) (1/10) rfl rfl rfl⟩

/-- Splitting a run of the scan loop into two consecutive stretches. -/
theorem detectFrom_add (data : List ℚ) (r : ℕ) (t : ℚ) :
    ∀ (a : ℕ) (b : ℕ) (s : DetectState) (i : ℕ),
    detectFrom data r t s i (a + b) =
      detectFrom data r t (detectFrom data r t s i a) (i + a) b := by
  intro a
  induction a with
  | zero => intro b s i; simp [detectFrom]
  | succ n ih =>
    intro b s i
    have h1 : n + 1 + b = n + b + 1 := by omega
    rw [h1]
    simp only [detectFrom]
    rw [ih b (detectStep data r t s i) (i + 1)]
    have h2 : i + 1 + n = i + (n + 1) := by omega
    rw [h2]

/-- A step where the windowed RMS does not exceed the threshold leaves an
idle state unchanged. -/
theorem detectStep_idle (data : List ℚ) (r : ℕ) (t : ℚ) {s : DetectState} (i : ℕ)
    (hs : s.isInPeak = false)
    (h : (calculateRMS data i (rmsWindowSize r)).gtQ t = false) :
    detectStep data r t s i = s := by
  simp only [detectStep]
  rw [if_neg (by simp [h]), if_neg (by simp [h]), if_neg (by simp [hs])]

/-- A stretch of below-threshold indices leaves an idle state unchanged. -/
theorem detectFrom_idle (data : List ℚ) (r : ℕ) (t : ℚ) :
    ∀ (rem i : ℕ) (s : DetectState), s.isInPeak = false →
    (∀ j, i ≤ j → j < i + rem → (calculateRMS data j (rmsWindowSize r)).gtQ t = false) →
    detectFrom data r t s i rem = s := by
  intro rem
  induction rem with
  | zero => intro i s _ _; rfl
  | succ n ih =>
    intro i s hs h
    simp only [detectFrom]
    rw [detectStep_idle data r t i hs (h i le_rfl (by omega))]
    exact ih (i + 1) s hs (fun j hj1 hj2 => h j (by omega) (by omega))

/-- A step where the windowed RMS exceeds the threshold keeps an in-peak
state, only updating the running amplitude. -/
theorem detectStep_inPeak (data : List ℚ) (r : ℕ) (t : ℚ) {s : DetectState} (i : ℕ)
    (hs : s.isInPeak = true)
    (h : (calculateRMS data i (rmsWindowSize r)).gtQ t = true) :
    detectStep data r t s i =
      { s with maxAmplitude := s.maxAmplitude.max (calculateRMS data i (rmsWindowSize r)) } := by
  simp only [detectStep]
  rw [if_neg (by simp [hs]), if_pos ⟨h, hs⟩]

/-- A stretch of above-threshold indices keeps an in-peak state, only the
running amplitude changes. -/
theorem detectFrom_inPeak (data : List ℚ) (r : ℕ) (t : ℚ) :
    ∀ (rem i : ℕ) (s : DetectState), s.isInPeak = true →
    (∀ j, i ≤ j → j < i + rem → (calculateRMS data j (rmsWindowSize r)).gtQ t = true) →
    ∃ a, detectFrom data r t s i rem = { s with maxAmplitude := a } := by
  intro rem
  induction rem with
  | zero => intro i s _ _; exact ⟨s.maxAmplitude, rfl⟩
  | succ n ih =>
    intro i s hs h
    simp only [detectFrom]
    rw [detectStep_inPeak data r t i hs (h i le_rfl (by omega))]
    obtain ⟨a, ha⟩ := ih (i + 1)
      { s with maxAmplitude := s.maxAmplitude.max (calculateRMS data i (rmsWindowSize r)) }
      hs (fun j hj1 hj2 => h j (by omega) (by omega))
    exact ⟨a, ha⟩

/-- Entering a peak: the exact successor state. -/
theorem detectStep_entry (data : List ℚ) (r : ℕ) (t : ℚ) {s : DetectState} (i : ℕ)
    (hs : s.isInPeak = false)
    (hgt : (calculateRMS data i (rmsWindowSize r)).gtQ t = true)
    (hdist : minPeakDistanceSamples r ≤ (i : ℤ) - s.lastPeakIndex) :
    detectStep data r t s i =
      { s with isInPeak := true,
               peakStartIndex := max ((i : ℤ) - prePeakBufferSamples r)
                 (s.lastPeakIndex + minPeakDistanceSamples r),
               maxAmplitude := calculateRMS data i (rmsWindowSize r) } := by
  simp only [detectStep]
  rw [if_pos ⟨hgt, hs, hdist⟩]

/-- Leaving a peak with the duration guard satisfied: the exact successor
state, with the new segment appended. -/
theorem detectStep_exit (data : List ℚ) (r : ℕ) (t : ℚ) {s : DetectState} (i : ℕ)
    (hs : s.isInPeak = true)
    (hgt : (calculateRMS data i (rmsWindowSize r)).gtQ t = false)
    (hle : (calculateRMS data i (rmsWindowSize r)).leQ t = true)
    (hguard : minSegmentSamples r ≤
      exitPeakEnd r (data.length : ℤ) s.peakStartIndex i - s.peakStartIndex) :
    detectStep data r t s i =
      { s with isInPeak := false,
               peaks := s.peaks ++ [Peak.mk ((s.peakStartIndex : ℚ) / (r : ℚ))
                 ((exitPeakEnd r (data.length : ℤ) s.peakStartIndex i : ℚ) / (r : ℚ))
                 s.maxAmplitude],
               lastPeakIndex := exitPeakEnd r (data.length : ℤ) s.peakStartIndex i } := by
  simp only [detectStep]
  rw [if_neg (by simp [hgt]), if_neg (by simp [hgt]), if_pos ⟨hle, hs⟩, if_pos hguard]

/-- A window of zero samples has zero sum of squares. -/
theorem sumSquaresFrom_zero (data : List ℚ) :
    ∀ (cnt start : ℕ), (∀ j, start ≤ j → j < start + cnt → data.getD j 0 = 0) →
    sumSquaresFrom data start cnt = 0 := by
  intro cnt
  induction cnt with
  | zero => intro start _; rfl
  | succ n ih =>
    intro start h
    simp only [sumSquaresFrom]
    rw [h start le_rfl (by omega), ih (start + 1) (fun j h1 h2 => h j (by omega) (by omega))]
    ring

/-- A window of constant samples `v` has sum of squares `count · v²`. -/
theorem sumSquaresFrom_const (data : List ℚ) (v : ℚ) :
    ∀ (cnt start : ℕ), (∀ j, start ≤ j → j < start + cnt → data.getD j 0 = v) →
    sumSquaresFrom data start cnt = (cnt : ℚ) * (v * v) := by
  intro cnt
  induction cnt with
  | zero => intro start _; simp [sumSquaresFrom]
  | succ n ih =>
    intro start h
    simp only [sumSquaresFrom]
    rw [h start le_rfl (by omega), ih (start + 1) (fun j h1 h2 => h j (by omega) (by omega))]
    push_cast
    ring

/-- Splitting a sum of squares over a window into two adjacent windows. -/
theorem sumSquaresFrom_split (data : List ℚ) :
    ∀ (a b start : ℕ), sumSquaresFrom data start (a + b) =
      sumSquaresFrom data start a + sumSquaresFrom data (start + a) b := by
  intro a
  induction a with
  | zero => intro b start; simp [sumSquaresFrom]
  | succ n ih =>
    intro b start
    have h1 : n + 1 + b = n + b + 1 := by omega
    rw [h1]
    simp only [sumSquaresFrom]
    rw [ih b (start + 1)]
    have h2 : start + 1 + n = start + (n + 1) := by omega
    rw [h2]
    ring

/-- In-range index with a nonempty window: `calculateRMS` returns a value, not
`NaN`. -/
theorem calculateRMS_eq (data : List ℚ) (start winLen : ℕ)
    (h1 : start < data.length) (h2 : 1 ≤ winLen) :
    calculateRMS data start winLen =
      RVal.sqrtVal (sumSquaresFrom data start (min (start + winLen) data.length - start) /
        (((min (start + winLen) data.length : ℕ) : ℚ) - (start : ℚ))) := by
  have he : start < min (start + winLen) data.length := lt_min (by omega) h1
  simp only [calculateRMS]
  rw [if_neg (by omega)]

/-- A window consisting of zero samples yields RMS `√0`. -/
theorem calculateRMS_zeroWindow (data : List ℚ) (start winLen : ℕ)
    (h1 : start < data.length) (h2 : 1 ≤ winLen)
    (hz : ∀ j, start ≤ j → j < min (start + winLen) data.length → data.getD j 0 = 0) :
    calculateRMS data start winLen = RVal.sqrtVal 0 := by
  rw [calculateRMS_eq data start winLen h1 h2,
    sumSquaresFrom_zero data (min (start + winLen) data.length - start) start
      (fun j hj1 hj2 => hz j hj1 (by omega)), zero_div]

/-- Any non-`NaN` RMS value exceeds a negative threshold. -/
theorem gtQ_sqrtVal_neg {q t : ℚ} (ht : t < 0) : (RVal.sqrtVal q).gtQ t = true := by
  simp [RVal.gtQ, ht]

/-- C6: an all-zero sample buffer of any length, with any threshold > 0,
produces the empty segment sequence. -/
theorem detectPeaks_silence (data : List ℚ) (r : ℕ) (t : ℚ)
    (hz : ∀ x ∈ data, x = 0) (ht : 0 < t) :
    detectPeaks data r t = [] := by
  have hzero : ∀ j, data.getD j 0 = 0 := by
    intro j
    rcases lt_or_le j data.length with h | h
    · rw [List.getD_eq_getElem data 0 h]
      exact hz _ (List.getElem_mem h)
    · exact List.getD_eq_default data 0 h
  have hgt : ∀ i : ℕ, (calculateRMS data i (rmsWindowSize r)).gtQ t = false := by
    intro i
    simp only [calculateRMS]
    by_cases he : min (i + rmsWindowSize r) data.length = i
    · rw [if_pos he]; rfl
    · rw [if_neg he]
      rw [sumSquaresFrom_zero data (min (i + rmsWindowSize r) data.length - i) i
        (fun j _ _ => hzero j), zero_div]
      simp [RVal.gtQ, not_lt.mpr ht.le, not_lt.mpr (mul_self_nonneg t)]
  simp only [detectPeaks]
  rw [detectFrom_idle data r t data.length 0 (initState r) rfl (fun j _ _ => hgt j)]
  rfl

set_option maxRecDepth 40000 in
theorem detectPeaks_silence_witness :
    (∀ x ∈ List.replicate 5 (0 : ℚ), x = 0) ∧ (0 : ℚ) < 1/10 ∧
    detectPeaks (List.replicate 5 0) 48000 (1/10) = [] :=
  ⟨by decide, by norm_num,
    detectPeaks_silence (List.replicate 5 0) 48000 (1/10) (by decide) (by norm_num)⟩

/-- C1 (amended): with any threshold < 0 (below-threshold RMS is impossible),
a sample rate of at least 200 (so the RMS window is nonempty) and a buffer of
at least `minSegmentSamples` samples, the detector enters a peak at index 0
and never exits it — the exit test `rms <= threshold` can never succeed — so
nothing is emitted inside the loop and only the end-of-buffer flush fires:
the result is exactly ONE segment `[0, min(N, maxSegmentSamples)/sampleRate]`,
not a chain of `MAX_SEGMENT_DURATION`-sized segments covering the buffer. -/
theorem detectPeaks_neg_threshold (data : List ℚ) (r : ℕ) (t : ℚ)
    (ht : t < 0) (hw : 1 ≤ rmsWindowSize r)
    (hN : minSegmentSamples r ≤ (data.length : ℤ)) (hN1 : 1 ≤ data.length) :
    ∃ a, detectPeaks data r t =
      [Peak.mk 0 ((min ((data.length : ℕ) : ℤ) (maxSegmentSamples r) : ℚ) / (r : ℚ)) a] := by
  have hgt : ∀ i : ℕ, i < data.length →
      (calculateRMS data i (rmsWindowSize r)).gtQ t = true := by
    intro i hi
    rw [calculateRMS_eq data i (rmsWindowSize r) hi hw]
    exact gtQ_sqrtVal_neg ht
  have hstep0 : detectStep data r t (initState r) 0 = DetectState.mk []
      (-(minPeakDistanceSamples r)) true 0 (calculateRMS data 0 (rmsWindowSize r)) := by
    have hdist : minPeakDistanceSamples r ≤ ((0 : ℕ) : ℤ) - (initState r).lastPeakIndex := by
      simp [initState]
    rw [detectStep_entry data r t 0 rfl (hgt 0 (by omega)) hdist]
    have hpre := prePeakBufferSamples_nonneg r
    simp only [initState]
    congr 1
    push_cast
    omega
  have hrun : ∃ a, detectFrom data r t (initState r) 0 data.length =
      DetectState.mk [] (-(minPeakDistanceSamples r)) true 0 a := by
    obtain ⟨m, hm⟩ : ∃ m, data.length = m + 1 := ⟨data.length - 1, by omega⟩
    rw [hm]
    simp only [detectFrom]
    rw [hstep0]
    obtain ⟨a, ha⟩ := detectFrom_inPeak data r t m 1
      (DetectState.mk [] (-(minPeakDistanceSamples r)) true 0
        (calculateRMS data 0 (rmsWindowSize r))) rfl
      (fun j hj1 hj2 => hgt j (by omega))
    exact ⟨a, by rw [ha]⟩
  obtain ⟨a, ha⟩ := hrun
  refine ⟨a, ?_⟩
  simp only [detectPeaks]
  rw [ha]
  have hguard : minSegmentSamples r ≤
      min ((data.length : ℕ) : ℤ)
        ((DetectState.mk [] (-(minPeakDistanceSamples r)) true 0 a).peakStartIndex +
          maxSegmentSamples r) -
        (DetectState.mk [] (-(minPeakDistanceSamples r)) true 0 a).peakStartIndex := by
    have := minSegmentSamples_le_maxSegmentSamples r
    simp only [DetectState.peakStartIndex]
    omega
  rw [if_pos rfl, if_pos hguard]
  simp only [DetectState.peaks, DetectState.peakStartIndex, DetectState.maxAmplitude,
    List.nil_append]
  norm_num

set_option maxRecDepth 200000 in
/-- C1 counterexample: 100 samples of `1` at 200 Hz with threshold `-1 ≤ 0`.
`maxSegmentSamples 200 = 40` and `minSegmentSamples 200 = 10`, so a chain of
maximum-length segments covering the buffer would be `[0,40],[50,90] …`
(at least two segments); the code instead returns the single flush segment
`[0, 40/200]` because the in-peak run never closes. -/
theorem detectPeaks_neg_threshold_counterexample :
    detectPeaks (List.replicate 100 1) 200 (-1) = [Peak.mk 0 (1/5) (RVal.sqrtVal 1)] ∧
    ¬2 ≤ (detectPeaks (List.replicate 100 1) 200 (-1)).length := by
  refine ⟨by decide, by decide⟩

set_option maxRecDepth 200000 in
theorem detectPeaks_neg_threshold_witness :
    (-1 : ℚ) < 0 ∧ 1 ≤ rmsWindowSize 200 ∧
    minSegmentSamples 200 ≤ ((List.replicate (100 : ℕ) (1 : ℚ)).length : ℤ) ∧
    1 ≤ (List.replicate (100 : ℕ) (1 : ℚ)).length ∧
    ∃ a, detectPeaks (List.replicate 100 1) 200 (-1) =
      [Peak.mk 0 ((min (((List.replicate (100 : ℕ) (1 : ℚ)).length : ℕ) : ℤ)
        (maxSegmentSamples 200) : ℚ) / ((200 : ℕ) : ℚ)) a] :=
  ⟨by norm_num, by decide, by decide, by decide,
    detectPeaks_neg_threshold (List.replicate 100 1) 200 (-1) (by norm_num) (by decide)
      (by decide) (by decide)⟩

/-- C8 (amended): `sliceAudio` performs no bounds check and never raises a
range error — its only failure is `createBuffer` rejecting a nonpositive
sample count (or an empty channel list); for a range lying inside the buffer
it returns exactly the `[sampleStart, sampleStart + sampleDuration)` samples
of every channel. -/
theorem sliceAudio_inBounds (channels : List (List ℚ)) (r : ℕ) (startT endT : ℚ)
    (hch : channels.length ≠ 0)
    (hdur : 0 < ⌊(endT - startT) * (r : ℚ)⌋)
    (hstart : 0 ≤ ⌊startT * (r : ℚ)⌋)
    (hbound : ∀ d ∈ channels,
      ⌊startT * (r : ℚ)⌋ + ⌊(endT - startT) * (r : ℚ)⌋ ≤ (d.length : ℤ)) :
    sliceAudio channels r startT endT = Except.ok (channels.map fun d =>
      ((d.drop (⌊startT * (r : ℚ)⌋).toNat).take
        (⌊(endT - startT) * (r : ℚ)⌋).toNat).map some) := by
  simp only [sliceAudio]
  rw [if_neg (by push_neg; exact ⟨hch, by omega⟩)]
  congr 1
  apply List.map_congr_left
  intro d hd
  have hb := hbound d hd
  apply List.ext_getElem?
  intro j
  by_cases hj : j < (⌊(endT - startT) * (r : ℚ)⌋).toNat
  · have hidx : (⌊startT * (r : ℚ)⌋).toNat + j < d.length := by omega
    have htonat : (⌊startT * (r : ℚ)⌋ + (j : ℤ)).toNat = (⌊startT * (r : ℚ)⌋).toNat + j := by
      omega
    have hpos : (0 : ℤ) ≤ ⌊startT * (r : ℚ)⌋ + (j : ℤ) := by omega
    rw [List.getElem?_map, List.getElem?_map, List.getElem?_range hj,
      List.getElem?_take_of_lt hj, List.getElem?_drop, List.getElem?_eq_getElem hidx]
    simp [readSample, hpos, htonat, List.getElem?_eq_getElem hidx]
  · have h1 : ((List.range (⌊(endT - startT) * (r : ℚ)⌋).toNat).map
        (fun i : ℕ => readSample d (⌊startT * (r : ℚ)⌋ + (i : ℤ))))[j]? = none := by
      apply List.getElem?_eq_none
      simp only [List.length_map, List.length_range]
      omega
    have h2 : (((d.drop (⌊startT * (r : ℚ)⌋).toNat).take
        (⌊(endT - startT) * (r : ℚ)⌋).toNat).map some)[j]? = none := by
      apply List.getElem?_eq_none
      simp only [List.length_map, List.length_take]
      omega
    rw [h1, h2]

/-- C8 counterexample: slicing the range `[0, 2)` seconds out of a 1-sample
buffer at 1 Hz exceeds the buffer bounds, yet `sliceAudio` raises no
`RangeError`: it returns a buffer whose out-of-range read became `NaN`
(modelled as `none`). -/
theorem sliceAudio_no_rangeError_counterexample :
    sliceAudio [[1]] 1 0 2 = Except.ok [[some 1, none]] ∧
    ∀ e : SliceError, sliceAudio [[1]] 1 0 2 ≠ Except.error e := by
  refine ⟨rfl, ?_⟩
  intro e h
  rw [(rfl : sliceAudio [[1]] 1 0 2 = Except.ok [[some 1, none]])] at h
  exact Except.noConfusion h

theorem sliceAudio_inBounds_witness :
    ([[1, 2, 3]] : List (List ℚ)).length ≠ 0 ∧
    0 < ⌊((3 : ℚ) - 1) * ((1 : ℕ) : ℚ)⌋ ∧
    0 ≤ ⌊(1 : ℚ) * ((1 : ℕ) : ℚ)⌋ ∧
    (∀ d ∈ ([[1, 2, 3]] : List (List ℚ)),
      ⌊(1 : ℚ) * ((1 : ℕ) : ℚ)⌋ + ⌊((3 : ℚ) - 1) * ((1 : ℕ) : ℚ)⌋ ≤ (d.length : ℤ)) ∧
    sliceAudio [[1, 2, 3]] 1 1 3 = Except.ok (([[1, 2, 3]] : List (List ℚ)).map fun d =>
      ((d.drop (⌊(1 : ℚ) * ((1 : ℕ) : ℚ)⌋).toNat).take
        (⌊((3 : ℚ) - 1) * ((1 : ℕ) : ℚ)⌋).toNat).map some) :=
  ⟨by decide, by decide, by decide, by decide,
    sliceAudio_inBounds [[1, 2, 3]] 1 1 3 (by decide) (by decide) (by decide) (by decide)⟩

theorem mkBuffer_getD (n : ℕ) (f : ℕ → ℚ) (j : ℕ) :
    (mkBuffer n f).getD j 0 = if j < n then f j else 0 := by
  unfold mkBuffer
  rcases lt_or_le j n with h | h
  · rw [if_pos h, List.getD_eq_getElem _ _ (by simpa using h)]
    simp
  · rw [if_neg (not_lt.mpr h), List.getD_eq_default _ _ (by simpa using h)]

theorem scenarioA_getD (j : ℕ) :
    scenarioA.getD j 0 = if 4800 ≤ j ∧ j < 4900 then 1/2 else 0 := by
  rw [scenarioA, mkBuffer_getD]
  unfold burstSig
  by_cases h : j < 48000
  · rw [if_pos h]
  · rw [if_neg h, if_neg (by omega)]

theorem scenarioA_length : scenarioA.length = 48000 := by
  simp [scenarioA, mkBuffer]

theorem rmsWindowSize_48000 : rmsWindowSize 48000 = 240 := by decide

theorem minPD_48000 : minPeakDistanceSamples 48000 = 2400 := by decide

theorem pre_48000 : prePeakBufferSamples 48000 = 1200 := by decide

theorem post_48000 : postPeakBufferSamples 48000 = 2400 := by decide

theorem minSeg_48000 : minSegmentSamples 48000 = 2400 := by decide

theorem maxSeg_48000 : maxSegmentSamples 48000 = 9600 := by decide

/-- Scenario A windowed RMS, windows disjoint from the burst: `√0`. -/
theorem scenarioA_rms_zero (i : ℕ) (hi : i < 48000) (h : i + 240 ≤ 4800 ∨ 4900 ≤ i) :
    calculateRMS scenarioA i 240 = RVal.sqrtVal 0 := by
  apply calculateRMS_zeroWindow scenarioA i 240 (by rw [scenarioA_length]; omega) (by norm_num)
  intro j hj1 hj2
  rw [scenarioA_length] at hj2
  rw [scenarioA_getD]
  exact if_neg (by omega)

/-- Scenario A windowed RMS, window overlapping the left edge of the burst:
`i − 4560` samples of `1/2` in the window. -/
theorem scenarioA_rms_left (i : ℕ) (h1 : 4561 ≤ i) (h2 : i ≤ 4660) :
    calculateRMS scenarioA i 240 =
      RVal.sqrtVal (((i - 4560 : ℕ) : ℚ) * (1/4) / 240) := by
  rw [calculateRMS_eq scenarioA i 240 (by rw [scenarioA_length]; omega) (by norm_num)]
  have hmin : min (i + 240) scenarioA.length = i + 240 := by rw [scenarioA_length]; omega
  rw [hmin]
  have hz : sumSquaresFrom scenarioA i (4800 - i) = 0 := by
    apply sumSquaresFrom_zero
    intro j hj1 hj2
    rw [scenarioA_getD]
    exact if_neg (by omega)
  have hc : sumSquaresFrom scenarioA (i + (4800 - i)) (i + 240 - 4800) =
      ((i + 240 - 4800 : ℕ) : ℚ) * ((1/2) * (1/2)) := by
    apply sumSquaresFrom_const
    intro j hj1 hj2
    rw [scenarioA_getD]
    exact if_pos (by omega)
  have hsum : sumSquaresFrom scenarioA i (i + 240 - i) =
      ((i - 4560 : ℕ) : ℚ) * (1/4) := by
    have hcnt : i + 240 - i = (4800 - i) + (i + 240 - 4800) := by omega
    rw [hcnt, sumSquaresFrom_split scenarioA (4800 - i) (i + 240 - 4800) i, hz, hc]
    have h3 : i + 240 - 4800 = i - 4560 := by omega
    rw [h3]
    norm_num
  have hden : ((i + 240 : ℕ) : ℚ) - (i : ℚ) = 240 := by push_cast; ring
  rw [hsum, hden]

/-- Scenario A windowed RMS, window containing the whole burst:
100 samples of `1/2` in the window. -/
theorem scenarioA_rms_mid (i : ℕ) (h1 : 4661 ≤ i) (h2 : i ≤ 4800) :
    calculateRMS scenarioA i 240 = RVal.sqrtVal ((100 : ℚ) * (1/4) / 240) := by
  rw [calculateRMS_eq scenarioA i 240 (by rw [scenarioA_length]; omega) (by norm_num)]
  have hmin : min (i + 240) scenarioA.length = i + 240 := by rw [scenarioA_length]; omega
  rw [hmin]
  have hz1 : sumSquaresFrom scenarioA i (4800 - i) = 0 := by
    apply sumSquaresFrom_zero
    intro j hj1 hj2
    rw [scenarioA_getD]
    exact if_neg (by omega)
  have hc : sumSquaresFrom scenarioA (i + (4800 - i)) 100 =
      ((100 : ℕ) : ℚ) * ((1/2) * (1/2)) := by
    apply sumSquaresFrom_const
    intro j hj1 hj2
    rw [scenarioA_getD]
    exact if_pos (by omega)
  have hz2 : sumSquaresFrom scenarioA (i + (4800 - i) + 100) (i - 4660) = 0 := by
    apply sumSquaresFrom_zero
    intro j hj1 hj2
    rw [scenarioA_getD]
    exact if_neg (by omega)
  have hsum : sumSquaresFrom scenarioA i (i + 240 - i) = (100 : ℚ) * (1/4) := by
    have hcnt : i + 240 - i = (4800 - i) + (100 + (i - 4660)) := by omega
    rw [hcnt, sumSquaresFrom_split scenarioA (4800 - i) (100 + (i - 4660)) i,
      sumSquaresFrom_split scenarioA 100 (i - 4660) (i + (4800 - i)), hz1, hc, hz2]
    norm_num
  have hden : ((i + 240 : ℕ) : ℚ) - (i : ℚ) = 240 := by push_cast; ring
  rw [hsum, hden]

/-- Scenario A windowed RMS, window overlapping the right edge of the burst:
`4900 − i` samples of `1/2` in the window. -/
theorem scenarioA_rms_right (i : ℕ) (h1 : 4801 ≤ i) (h2 : i ≤ 4899) :
    calculateRMS scenarioA i 240 =
      RVal.sqrtVal (((4900 - i : ℕ) : ℚ) * (1/4) / 240) := by
  rw [calculateRMS_eq scenarioA i 240 (by rw [scenarioA_length]; omega) (by norm_num)]
  have hmin : min (i + 240) scenarioA.length = i + 240 := by rw [scenarioA_length]; omega
  rw [hmin]
  have hc : sumSquaresFrom scenarioA i (4900 - i) =
      ((4900 - i : ℕ) : ℚ) * ((1/2) * (1/2)) := by
    apply sumSquaresFrom_const
    intro j hj1 hj2
    rw [scenarioA_getD]
    exact if_pos (by omega)
  have hz : sumSquaresFrom scenarioA (i + (4900 - i)) (i + 240 - 4900) = 0 := by
    apply sumSquaresFrom_zero
    intro j hj1 hj2
    rw [scenarioA_getD]
    exact if_neg (by omega)
  have hsum : sumSquaresFrom scenarioA i (i + 240 - i) =
      ((4900 - i : ℕ) : ℚ) * (1/4) := by
    have hcnt : i + 240 - i = (4900 - i) + (i + 240 - 4900) := by omega
    rw [hcnt, sumSquaresFrom_split scenarioA (4900 - i) (i + 240 - 4900) i, hc, hz]
    norm_num
  have hden : ((i + 240 : ℕ) : ℚ) - (i : ℚ) = 240 := by push_cast; ring
  rw [hsum, hden]

/-- The windowed RMS of `c/4` burst samples over a 240-sample window exceeds
the `0.1` threshold exactly when `c ≥ 10`. -/
theorem gtQ_regionVal_iff (c : ℕ) :
    (RVal.sqrtVal ((c : ℚ) * (1/4) / 240)).gtQ (1/10) = true ↔ 10 ≤ c := by
  simp only [RVal.gtQ, Bool.or_eq_true, decide_eq_true_eq]
  constructor
  · rintro (h | h)
    · norm_num at h
    · by_contra hc
      push_neg at hc
      have h9 : (c : ℚ) ≤ 9 := by exact_mod_cast Nat.lt_succ_iff.mp hc
      nlinarith
  · intro h
    right
    have h10 : (10 : ℚ) ≤ (c : ℚ) := by exact_mod_cast h
    nlinarith

theorem gtQ_regionVal_true (c : ℕ) (h : 10 ≤ c) :
    (RVal.sqrtVal ((c : ℚ) * (1/4) / 240)).gtQ (1/10) = true :=
  (gtQ_regionVal_iff c).mpr h

theorem gtQ_regionVal_false (c : ℕ) (h : c ≤ 9) :
    (RVal.sqrtVal ((c : ℚ) * (1/4) / 240)).gtQ (1/10) = false := by
  cases hb : (RVal.sqrtVal ((c : ℚ) * (1/4) / 240)).gtQ (1/10) with
  | false => rfl
  | true => exact absurd ((gtQ_regionVal_iff c).mp hb) (by omega)

theorem gtQ_val0_false : (RVal.sqrtVal (0 : ℚ)).gtQ (1/10) = false := by decide

theorem detectFrom_one (data : List ℚ) (r : ℕ) (t : ℚ) (s : DetectState) (i : ℕ) :
    detectFrom data r t s i 1 = detectStep data r t s i := rfl

/-- Scenario A: below index 4570 the windowed RMS never exceeds `0.1`
(fewer than 10 burst samples fall in the window). -/
theorem scenarioA_gtF_low : ∀ j, j < 4570 →
    (calculateRMS scenarioA j (rmsWindowSize 48000)).gtQ (1/10) = false := by
  intro j hj
  rw [rmsWindowSize_48000]
  rcases le_or_lt j 4560 with h | h
  · rw [scenarioA_rms_zero j (by omega) (Or.inl (by omega))]
    exact gtQ_val0_false
  · rw [scenarioA_rms_left j (by omega) (by omega)]
    exact gtQ_regionVal_false (j - 4560) (by omega)

/-- Scenario A: from index 4570 to 4890 the windowed RMS exceeds `0.1`
(at least 10 burst samples fall in the window). -/
theorem scenarioA_gtT_peak : ∀ j, 4570 ≤ j → j < 4891 →
    (calculateRMS scenarioA j (rmsWindowSize 48000)).gtQ (1/10) = true := by
  intro j h1 h2
  rw [rmsWindowSize_48000]
  rcases le_or_lt j 4660 with h | h
  · rw [scenarioA_rms_left j (by omega) (by omega)]
    exact gtQ_regionVal_true (j - 4560) (by omega)
  · rcases le_or_lt j 4800 with h' | h'
    · rw [scenarioA_rms_mid j (by omega) (by omega)]
      decide
    · rw [scenarioA_rms_right j (by omega) (by omega)]
      exact gtQ_regionVal_true (4900 - j) (by omega)

/-- Scenario A: from index 4891 on, the windowed RMS never exceeds `0.1`. -/
theorem scenarioA_gtF_high : ∀ j, 4891 ≤ j → j < 48000 →
    (calculateRMS scenarioA j (rmsWindowSize 48000)).gtQ (1/10) = false := by
  intro j h1 h2
  rw [rmsWindowSize_48000]
  rcases le_or_lt j 4899 with h | h
  · rw [scenarioA_rms_right j (by omega) (by omega)]
    exact gtQ_regionVal_false (4900 - j) (by omega)
  · rw [scenarioA_rms_zero j (by omega) (Or.inr (by omega))]
    exact gtQ_val0_false

/-- The full Scenario A run: the detector enters a peak at index 4570
(start clamped to `4570 - 1200 = 3370`), exits at index 4891
(end `4891 + 2400 = 7291`), and finds nothing else: exactly one segment. -/
theorem scenarioA_detect : ∃ a, detectPeaks scenarioA 48000 (1/10) =
    [Peak.mk ((3370 : ℚ) / 48000) ((7291 : ℚ) / 48000) a] := by
  have hlen : scenarioA.length = 48000 := scenarioA_length
  have c0 : detectFrom scenarioA 48000 (1/10) (initState 48000) 0 4570 = initState 48000 :=
    detectFrom_idle scenarioA 48000 (1/10) 4570 0 (initState 48000) rfl
      (fun j hj1 hj2 => scenarioA_gtF_low j (by omega))
  have hstep4570 : detectStep scenarioA 48000 (1/10) (initState 48000) 4570 =
      DetectState.mk [] (-2400) true 3370
        (calculateRMS scenarioA 4570 (rmsWindowSize 48000)) := by
    rw [detectStep_entry scenarioA 48000 (1/10) 4570 rfl
      (scenarioA_gtT_peak 4570 le_rfl (by norm_num))
      (by show minPeakDistanceSamples 48000 ≤ ((4570 : ℕ) : ℤ) -
            -(minPeakDistanceSamples 48000)
          rw [minPD_48000]
          norm_num)]
    simp only [initState, minPD_48000, pre_48000]
    congr 1
  have c1 : detectFrom scenarioA 48000 (1/10) (initState 48000) 0 4571 =
      DetectState.mk [] (-2400) true 3370
        (calculateRMS scenarioA 4570 (rmsWindowSize 48000)) := by
    have h := detectFrom_add scenarioA 48000 (1/10) 4570 1 (initState 48000) 0
    norm_num at h
    rw [h, c0, detectFrom_one]
    exact hstep4570
  obtain ⟨a2, c2⟩ := detectFrom_inPeak scenarioA 48000 (1/10) 320 4571
    (DetectState.mk [] (-2400) true 3370
      (calculateRMS scenarioA 4570 (rmsWindowSize 48000)))
    rfl (fun j hj1 hj2 => scenarioA_gtT_peak j (by omega) (by omega))
  have c3 : detectFrom scenarioA 48000 (1/10) (initState 48000) 0 4891 =
      DetectState.mk [] (-2400) true 3370 a2 := by
    have h := detectFrom_add scenarioA 48000 (1/10) 4571 320 (initState 48000) 0
    norm_num at h
    rw [h, c1, c2]
  have hE : exitPeakEnd 48000 ((scenarioA.length : ℕ) : ℤ) 3370 4891 = 7291 := by
    rw [hlen]
    decide
  have hgt4891 : (calculateRMS scenarioA 4891 (rmsWindowSize 48000)).gtQ (1/10) = false :=
    scenarioA_gtF_high 4891 le_rfl (by norm_num)
  have hle4891 : (calculateRMS scenarioA 4891 (rmsWindowSize 48000)).leQ (1/10) = true := by
    rw [rmsWindowSize_48000, scenarioA_rms_right 4891 (by norm_num) (by norm_num)]
    decide
  have hguard : minSegmentSamples 48000 ≤
      exitPeakEnd 48000 ((scenarioA.length : ℕ) : ℤ)
        (DetectState.mk [] (-2400) true 3370 a2).peakStartIndex 4891 -
        (DetectState.mk [] (-2400) true 3370 a2).peakStartIndex := by
    show minSegmentSamples 48000 ≤
      exitPeakEnd 48000 ((scenarioA.length : ℕ) : ℤ) 3370 4891 - 3370
    rw [minSeg_48000, hE]
    norm_num
  have hstep4891 : detectStep scenarioA 48000 (1/10)
      (DetectState.mk [] (-2400) true 3370 a2) 4891 =
      DetectState.mk [Peak.mk ((3370 : ℚ) / 48000) ((7291 : ℚ) / 48000) a2]
        7291 false 3370 a2 := by
    rw [detectStep_exit scenarioA 48000 (1/10) 4891 rfl hgt4891 hle4891 hguard]
    show DetectState.mk
        ([] ++ [Peak.mk (((3370 : ℤ) : ℚ) / ((48000 : ℕ) : ℚ))
          ((exitPeakEnd 48000 ((scenarioA.length : ℕ) : ℤ) 3370 4891 : ℚ) /
            ((48000 : ℕ) : ℚ)) a2])
        (exitPeakEnd 48000 ((scenarioA.length : ℕ) : ℤ) 3370 4891) false 3370 a2 = _
    rw [hE]
    simp only [List.nil_append]
    norm_num
  have c4 : detectFrom scenarioA 48000 (1/10) (initState 48000) 0 4892 =
      DetectState.mk [Peak.mk ((3370 : ℚ) / 48000) ((7291 : ℚ) / 48000) a2]
        7291 false 3370 a2 := by
    have h := detectFrom_add scenarioA 48000 (1/10) 4891 1 (initState 48000) 0
    norm_num at h
    rw [h, c3, detectFrom_one]
    exact hstep4891
  have c5 : detectFrom scenarioA 48000 (1/10) (initState 48000) 0 48000 =
      DetectState.mk [Peak.mk ((3370 : ℚ) / 48000) ((7291 : ℚ) / 48000) a2]
        7291 false 3370 a2 := by
    have h := detectFrom_add scenarioA 48000 (1/10) 4892 43108 (initState 48000) 0
    norm_num at h
    rw [h, c4, detectFrom_idle scenarioA 48000 (1/10) 43108 4892
      (DetectState.mk [Peak.mk ((3370 : ℚ) / 48000) ((7291 : ℚ) / 48000) a2]
        7291 false 3370 a2) rfl
      (fun j hj1 hj2 => scenarioA_gtF_high j (by omega) (by omega))]
  refine ⟨a2, ?_⟩
  simp only [detectPeaks]
  rw [hlen, c5]
  rfl

/-- C7 counterexample: Scenario A's 2.08ms burst is NOT too short to cross the
threshold — windows containing at least 10 burst samples have RMS
`≥ √(10·0.25/240) ≈ 0.102 > 0.1` — so `detectPeaks` returns a segment, not
zero segments. -/
theorem scenarioA_not_zero_segments : detectPeaks scenarioA 48000 (1/10) ≠ [] := by
  obtain ⟨a, h⟩ := scenarioA_detect
  rw [h]
  exact List.cons_ne_nil _ _

/-- C7 (amended): for the Scenario A input (48000 samples at 48000 Hz, all
zeros except samples `[4800:4900]` set to `0.5`, threshold `0.1`),
`detectPeaks` returns exactly one segment, `[3370/48000 s, 7291/48000 s]`. -/
theorem scenarioA_exactly_one_segment : ∃ a, detectPeaks scenarioA 48000 (1/10) =
    [Peak.mk ((3370 : ℚ) / 48000) ((7291 : ℚ) / 48000) a] := scenarioA_detect
